import Mathlib

/-!
Verification of the Gearless-Robotic-Arm data-analysis pipeline.

The Python sources under `Data_Analysis/` are shallowly embedded here:
numeric cells become exact rationals (`ℚ`), missing values (`NaN` after
`dropna`-relevant steps) become `Option ℚ`, and operations that can fail
at run time return `Except`/`Option`.  Each definition's doc comment cites
the source function and lines it embeds.
-/

namespace GearlessArm

/-! ## Cleaner: `data_processing.py`, `clean_test_data` (lines 14-59) -/

/-- Embeds `data.dropna()` (data_processing.py line 28): a raw table is a
list of rows of optional rationals (`none` = missing value / NaN); every
row containing a missing value is dropped whole. -/
def dropna (df : List (List (Option ℚ))) : List (List ℚ) :=
  df.filterMap (fun r =>
    if r.all (fun c => c.isSome) then some (r.map (fun c => c.getD 0)) else none)

/-- Embeds `data_cleaned[col]` (data_processing.py lines 33-34): the values
of column `i` of the current row-filtered table. -/
def colVals (rows : List (List ℚ)) (i : ℕ) : List ℚ :=
  rows.map (fun r => r.getD i 0)

/-- Embeds `data_cleaned[col].mean()` (data_processing.py line 33).  For an
empty column pandas yields NaN; the value returned here is never used in
that case because the subsequent filter has no rows to test. -/
def col_mean (xs : List ℚ) : ℚ :=
  xs.sum / (xs.length : ℚ)

/-- Embeds `data_cleaned[col].std()` (data_processing.py line 34): the
sample variance (pandas default `ddof=1`).  pandas returns NaN when fewer
than two values remain, embedded as `none`.  We carry the variance σ²
rather than σ itself so everything stays inside `ℚ`; the outlier test
below uses the equivalent squared form of the μ ± 3σ bounds. -/
def sample_var (xs : List ℚ) : Option ℚ :=
  if xs.length ≤ 1 then none
  else some ((xs.map (fun x => (x - col_mean xs) * (x - col_mean xs))).sum /
    ((xs.length : ℚ) - 1))

/-- Embeds one iteration of the outlier loop (data_processing.py lines
32-42): for column `i`, keep exactly the rows with
`lower_bound <= x <= upper_bound` where the bounds are `mean ± 3 * std`
computed over the *current* rows.  Over `ℚ` the inclusive two-sided test
`μ - 3σ ≤ x ∧ x ≤ μ + 3σ` is written in its equivalent squared form
`(x - μ)·(x - μ) ≤ 9·σ²` (see `three_sigma_bounds_iff` below); when the
standard deviation is NaN (`none`, fewer than two rows) both pandas
comparisons are False, so no row survives. -/
def outlierPass (rows : List (List ℚ)) (i : ℕ) : List (List ℚ) :=
  match sample_var (colVals rows i) with
  | none => rows.filter (fun _ => false)
  | some v => rows.filter (fun r =>
      decide ((r.getD i 0 - col_mean (colVals rows i)) *
        (r.getD i 0 - col_mean (colVals rows i)) ≤ 9 * v))

/-- Embeds the `for col in numeric_columns` loop (data_processing.py lines
32-42) run for the first `k` columns: the passes are sequential and
cumulative, each pass filtering the rows left by the previous ones. -/
def cleanPasses (rows : List (List ℚ)) (k : ℕ) : List (List ℚ) :=
  (List.range k).foldl outlierPass rows

/-- Embeds `clean_test_data` (data_processing.py lines 14-59) restricted to
its row-content behaviour: drop rows with missing values, then run the
cumulative 3-sigma outlier filter over every (numeric) column.  The later
column-renaming and categorical casts do not change row membership and are
not modelled. -/
def clean_test_data (df : List (List (Option ℚ))) : List (List ℚ) :=
  cleanPasses (dropna df) ((dropna df).headD []).length

/-- Justification of the squared form used in `outlierPass`: over the real
numbers, `(x - μ)·(x - μ) ≤ 9·v` is exactly the inclusive two-sided bound
`μ - 3·√v ≤ x ∧ x ≤ μ + 3·√v` used by the source (`>=` and `<=`,
data_processing.py lines 41-42). -/
theorem three_sigma_bounds_iff (x m v : ℝ) (hv : 0 ≤ v) :
    (x - m) * (x - m) ≤ 9 * v ↔
      (m - 3 * Real.sqrt v ≤ x ∧ x ≤ m + 3 * Real.sqrt v) := by
  have hs : 0 ≤ Real.sqrt v := Real.sqrt_nonneg v
  have hsq : Real.sqrt v * Real.sqrt v = v := Real.mul_self_sqrt hv
  have h9 : 9 * v = (3 * Real.sqrt v) * (3 * Real.sqrt v) := by
    rw [mul_mul_mul_comm]; rw [hsq]; ring
  rw [h9]
  have habs : (x - m) * (x - m) = |x - m| * |x - m| := (abs_mul_abs_self _).symm
  rw [habs]
  have h3s : 0 ≤ 3 * Real.sqrt v := by positivity
  constructor
  · intro h
    have := (mul_self_le_mul_self_iff (abs_nonneg (x - m)) h3s).mpr h
    have habs2 := abs_le.mp this
    constructor <;> linarith [habs2.1, habs2.2]
  · intro h
    have habs2 : |x - m| ≤ 3 * Real.sqrt v := abs_le.mpr ⟨by linarith [h.1], by linarith [h.2]⟩
    exact (mul_self_le_mul_self_iff (abs_nonneg (x - m)) h3s).mp habs2

theorem outlierPass_nil (i : ℕ) : outlierPass [] i = [] := rfl

theorem foldl_outlierPass_nil (l : List ℕ) : List.foldl outlierPass [] l = [] := by
  induction l with
  | nil => rfl
  | cons a t ih => rw [List.foldl_cons, outlierPass_nil]; exact ih

theorem cleanPasses_succ (rows : List (List ℚ)) (i : ℕ) :
    cleanPasses rows (i + 1) = outlierPass (cleanPasses rows i) i := by
  unfold cleanPasses
  rw [List.range_succ, List.foldl_append, List.foldl_cons, List.foldl_nil]

/-- Eleven single-column rows whose extreme value `9` sits exactly at
`mean + 3 * std`: the column sums to 0 (mean 0), the squared deviations sum
to 90, so the sample variance is 9, the standard deviation 3, and the upper
bound `0 + 3·3 = 9` is hit exactly by the first row.  (With the sample
standard deviation a value at exactly 3σ needs at least 11 rows, since the
largest attainable z-score on n rows is (n−1)/√n.) -/
def boundary_df : List (List (Option ℚ)) :=
  [[some 9], [some (-3/4)], [some (-3/4)], [some (-3/4)], [some (-3/4)],
   [some (-3/4)], [some (-3/4)], [some (-3/4)], [some (-3/4)],
   [some (-3/2)], [some (-3/2)]]

unseal Rat.add Rat.mul Rat.inv Rat.sub in
/-- C4: `clean_test_data` filters outliers per numeric column sequentially
and cumulatively — every row that survives column `i`'s pass satisfies the
inclusive squared 3-sigma bound whose mean and sample variance are computed
over the rows surviving all earlier columns' passes — and the bounds are
inclusive: on an 11-row single-column table whose value `9` lies exactly at
`μ + 3σ` (μ = 0, σ = 3), that boundary row (and every other row) is
retained. -/
theorem clean_cumulative_inclusive_bounds :
    (∀ (df : List (List (Option ℚ))) (i : ℕ) (r : List ℚ),
      r ∈ cleanPasses (dropna df) (i + 1) →
      ∃ v, sample_var (colVals (cleanPasses (dropna df) i) i) = some v ∧
        (r.getD i 0 - col_mean (colVals (cleanPasses (dropna df) i) i)) *
          (r.getD i 0 - col_mean (colVals (cleanPasses (dropna df) i) i)) ≤ 9 * v) ∧
    clean_test_data boundary_df =
      [[9], [-3/4], [-3/4], [-3/4], [-3/4], [-3/4], [-3/4], [-3/4], [-3/4],
       [-3/2], [-3/2]] := by
  constructor
  · intro df i r hr
    rw [cleanPasses_succ] at hr
    unfold outlierPass at hr
    split at hr
    · simp at hr
    · next v heq =>
        rw [List.mem_filter] at hr
        exact ⟨v, heq, of_decide_eq_true hr.2⟩
  · decide

unseal Rat.add Rat.mul Rat.inv Rat.sub in
/-- Witness for C4: instantiates the cumulative-bound property at the
boundary table, column 0 and the row holding the exact-boundary value 9. -/
theorem clean_cumulative_inclusive_bounds_witness :
    ∃ v, sample_var (colVals (cleanPasses (dropna boundary_df) 0) 0) = some v ∧
      (([9] : List ℚ).getD 0 0 - col_mean (colVals (cleanPasses (dropna boundary_df) 0) 0)) *
        (([9] : List ℚ).getD 0 0 - col_mean (colVals (cleanPasses (dropna boundary_df) 0) 0)) ≤
        9 * v :=
  clean_cumulative_inclusive_bounds.1 boundary_df 0 [9] (by decide)

/-- C9: when a column's sample variance over the rows reaching its pass is
zero, `clean_test_data`'s outlier pass raises nothing and collapses the
bounds to `[μ, μ]`: exactly the rows whose value equals the column mean
survive, every other row is removed. -/
theorem clean_zero_variance_collapse (rows : List (List ℚ)) (i : ℕ)
    (h : sample_var (colVals rows i) = some 0) :
    outlierPass rows i =
      rows.filter (fun r => decide (r.getD i 0 = col_mean (colVals rows i))) := by
  unfold outlierPass
  rw [h]
  apply List.filter_congr
  intro r _
  rw [decide_eq_decide]
  constructor
  · intro hle
    have h0 : (r.getD i 0 - col_mean (colVals rows i)) *
        (r.getD i 0 - col_mean (colVals rows i)) = 0 :=
      le_antisymm (by linarith) (mul_self_nonneg _)
    have := mul_self_eq_zero.mp h0
    linarith
  · intro he
    rw [he]
    simp

unseal Rat.add Rat.mul Rat.inv Rat.sub in
/-- Witness for C9: a two-row constant column `[5, 5]` has sample variance
0; the pass keeps both rows (each equals the mean 5) and raises nothing. -/
theorem clean_zero_variance_collapse_witness :
    sample_var (colVals [[(5:ℚ)], [5]] 0) = some 0 ∧
      outlierPass [[(5:ℚ)], [5]] 0 =
        List.filter (fun r => decide (r.getD 0 0 = col_mean (colVals [[(5:ℚ)], [5]] 0)))
          [[(5:ℚ)], [5]] :=
  ⟨by decide, clean_zero_variance_collapse [[(5:ℚ)], [5]] 0 (by decide)⟩

/-- C10: if exactly one row survives `dropna` and the table has at least
one numeric column, `clean_test_data` returns the empty table: the sample
standard deviation of a single value is NaN, the NaN bounds compare False
against the value, and the inclusive filter removes the sole row. -/
theorem clean_single_row_empty (df : List (List (Option ℚ))) (r : List ℚ)
    (h1 : dropna df = [r]) (h2 : 1 ≤ r.length) :
    clean_test_data df = [] := by
  unfold clean_test_data
  rw [h1]
  show cleanPasses [r] r.length = []
  obtain ⟨w, hw⟩ : ∃ w, r.length = w + 1 := ⟨r.length - 1, by omega⟩
  rw [hw]
  unfold cleanPasses
  rw [List.range_succ_eq_map, List.foldl_cons]
  have h0 : outlierPass [r] 0 = [] := by
    unfold outlierPass
    have hv : sample_var (colVals [r] 0) = none := by
      simp [sample_var, colVals]
    rw [hv]
    simp
  rw [h0]
  exact foldl_outlierPass_nil _

/-- Witness for C10: a one-row, one-column table with no missing values is
cleaned to the empty table. -/
theorem clean_single_row_empty_witness :
    dropna [[some (3:ℚ)]] = [[3]] ∧ clean_test_data [[some (3:ℚ)]] = [] :=
  ⟨by decide, clean_single_row_empty [[some (3:ℚ)]] [3] (by decide) (by decide)⟩

/-! ## Normalizer: `data_processing.py`, `normalize_data` (lines 61-91) -/

/-- Embeds the per-column body of `normalize_data` (data_processing.py
lines 80-89): with `min_val` and `max_val` the column minimum and maximum,
rescale by `(x - min_val) / (max_val - min_val)` when `max_val > min_val`,
otherwise assign the whole column the constant 0. -/
def normalize_column : List ℚ → List ℚ
  | [] => []
  | x0 :: t =>
    if t.foldl min x0 < t.foldl max x0 then
      (x0 :: t).map (fun x => (x - t.foldl min x0) / (t.foldl max x0 - t.foldl min x0))
    else (x0 :: t).map (fun _ => 0)

/-- Embeds `normalize_data` (data_processing.py lines 61-91) on its numeric
target columns: the table is viewed column-wise and every target column is
rescaled by `normalize_column`; categorical columns are untouched and out
of scope here. -/
def normalize_data (cols : List (List ℚ)) : List (List ℚ) :=
  cols.map normalize_column

theorem foldl_min_le (t : List ℚ) (a : ℚ) :
    t.foldl min a ≤ a ∧ ∀ x ∈ t, t.foldl min a ≤ x := by
  induction t generalizing a with
  | nil => exact ⟨le_refl a, by intro x hx; cases hx⟩
  | cons u t ih =>
    rw [List.foldl_cons]
    refine ⟨le_trans (ih (min a u)).1 (min_le_left a u), ?_⟩
    intro x hx
    rcases List.mem_cons.mp hx with h | h
    · subst h; exact le_trans (ih (min a x)).1 (min_le_right a x)
    · exact (ih (min a u)).2 x h

theorem le_foldl_max (t : List ℚ) (a : ℚ) :
    a ≤ t.foldl max a ∧ ∀ x ∈ t, x ≤ t.foldl max a := by
  induction t generalizing a with
  | nil => exact ⟨le_refl a, by intro x hx; cases hx⟩
  | cons u t ih =>
    rw [List.foldl_cons]
    refine ⟨le_trans (le_max_left a u) (ih (max a u)).1, ?_⟩
    intro x hx
    rcases List.mem_cons.mp hx with h | h
    · subst h; exact le_trans (le_max_right a x) (ih (max a x)).1
    · exact (ih (max a u)).2 x h

theorem foldl_min_const (t : List ℚ) (a : ℚ) (h : ∀ x ∈ t, x = a) :
    t.foldl min a = a := by
  induction t with
  | nil => rfl
  | cons u t ih =>
    rw [List.foldl_cons, h u (List.mem_cons_self u t), min_self]
    exact ih (fun x hx => h x (List.mem_cons_of_mem u hx))

theorem foldl_max_const (t : List ℚ) (a : ℚ) (h : ∀ x ∈ t, x = a) :
    t.foldl max a = a := by
  induction t with
  | nil => rfl
  | cons u t ih =>
    rw [List.foldl_cons, h u (List.mem_cons_self u t), max_self]
    exact ih (fun x hx => h x (List.mem_cons_of_mem u hx))

/-- C7: for every numeric target column of the normalizer, a non-constant
column (two distinct values) is rescaled so every output value lies in
[0, 1], and a constant column (max = min) is mapped entirely to 0 — not
left unchanged, not NaN. -/
theorem normalize_range_and_constant (xs : List ℚ) :
    ((∃ a ∈ xs, ∃ b ∈ xs, a ≠ b) → ∀ y ∈ normalize_column xs, 0 ≤ y ∧ y ≤ 1) ∧
    ((∀ a ∈ xs, ∀ b ∈ xs, a = b) → ∀ y ∈ normalize_column xs, y = 0) := by
  constructor
  · rintro ⟨a, ha, b, hb, hab⟩ y hy
    cases xs with
    | nil => cases ha
    | cons x0 t =>
      have hmin := foldl_min_le t x0
      have hmax := le_foldl_max t x0
      have hminx : ∀ x ∈ x0 :: t, t.foldl min x0 ≤ x := by
        intro x hx
        rcases List.mem_cons.mp hx with h | h
        · subst h; exact hmin.1
        · exact hmin.2 x h
      have hmaxx : ∀ x ∈ x0 :: t, x ≤ t.foldl max x0 := by
        intro x hx
        rcases List.mem_cons.mp hx with h | h
        · subst h; exact hmax.1
        · exact hmax.2 x h
      have hlt : t.foldl min x0 < t.foldl max x0 := by
        rcases lt_or_gt_of_ne hab with h | h
        · exact lt_of_le_of_lt (hminx a ha) (lt_of_lt_of_le h (hmaxx b hb))
        · exact lt_of_le_of_lt (hminx b hb) (lt_of_lt_of_le h (hmaxx a ha))
      simp only [normalize_column] at hy
      rw [if_pos hlt] at hy
      rw [List.mem_map] at hy
      obtain ⟨x, hx, rfl⟩ := hy
      have hd : (0:ℚ) < t.foldl max x0 - t.foldl min x0 := by linarith
      constructor
      · apply div_nonneg _ (le_of_lt hd)
        have := hminx x hx
        linarith
      · rw [div_le_one hd]
        have := hmaxx x hx
        linarith
  · intro hconst y hy
    cases xs with
    | nil => cases hy
    | cons x0 t =>
      have hmin : t.foldl min x0 = x0 :=
        foldl_min_const t x0 (fun x hx =>
          hconst x (List.mem_cons_of_mem x0 hx) x0 (List.mem_cons_self x0 t))
      have hmax : t.foldl max x0 = x0 :=
        foldl_max_const t x0 (fun x hx =>
          hconst x (List.mem_cons_of_mem x0 hx) x0 (List.mem_cons_self x0 t))
      simp only [normalize_column] at hy
      rw [hmin, hmax, if_neg (lt_irrefl x0)] at hy
      rw [List.mem_map] at hy
      obtain ⟨x, _, rfl⟩ := hy
      rfl

unseal Rat.add Rat.mul Rat.inv Rat.sub in
/-- Witness for C7: the non-constant column `[0, 2]` normalizes into
[0, 1] (here at the output value 1), and the constant column `[5, 5, 5]`
from the spec scenario normalizes to all zeros (here at its first output
value). -/
theorem normalize_range_and_constant_witness :
    ((0:ℚ) ≤ 1 ∧ (1:ℚ) ≤ 1) ∧ (0:ℚ) = 0 :=
  ⟨(normalize_range_and_constant [0, 2]).1
      (by refine ⟨0, by decide, 2, by decide, by decide⟩) 1 (by decide),
    (normalize_range_and_constant [5, 5, 5]).2 (by decide) 0 (by decide)⟩

/-! ## Metric Deriver: `data_processing.py`, `add_calculated_metrics`
(lines 93-133) -/

/-- Embeds the per-row `efficiency` computation (data_processing.py lines
109-113): `np.where(load > 0, load / power_consumption, 0)`.  Note the
guard tests `load` — the NUMERATOR — so in the guarded branch the divisor
`power_consumption` may still be zero; numpy then produces a non-finite
value (inf/nan after a warning), embedded as `none`. -/
def efficiency_cell (load power_consumption : ℚ) : Option ℚ :=
  if 0 < load then
    if power_consumption = 0 then none else some (load / power_consumption)
  else some 0

/-- Embeds the per-row `safety_factor` computation (data_processing.py
lines 127-131): `np.where(stress > 0, yield_strength / stress, np.nan)`.
The guard tests `stress`, the denominator, so the division in the guarded
branch is always safe; the NaN marker for non-positive stress is embedded
as `none`. -/
def safety_factor_cell (yield_strength stress : ℚ) : Option ℚ :=
  if 0 < stress then some (yield_strength / stress) else none

/-! ## Comparator: `performance_metrics.py`, `calculate_efficiency_metrics`
(lines 219-228) and `structural_analysis.py`, `compare_with_traditional`
(lines 118-168) -/

/-- Embeds the per-metric improvement of the `calculate_efficiency_metrics`
loop (performance_metrics.py lines 221-228):
`imp_pct = (trad_val - gearless_val) / trad_val * 100`, the lower-is-better
form, applied to every metric with NO check on `trad_val`.  A zero
`trad_val` fails only through the bare division itself (Python
`ZeroDivisionError` on plain floats, a non-finite value on numpy floats),
embedded as the `error` branch; every non-zero baseline — negative ones
included — silently yields the formula value. -/
instance exceptDecEq {ε α : Type} [DecidableEq ε] [DecidableEq α] :
    DecidableEq (Except ε α) := fun x y =>
  match x, y with
  | Except.ok a, Except.ok b =>
    if h : a = b then Decidable.isTrue (by rw [h])
    else Decidable.isFalse (fun hh => h (Except.ok.inj hh))
  | Except.error a, Except.error b =>
    if h : a = b then Decidable.isTrue (by rw [h])
    else Decidable.isFalse (fun hh => h (Except.error.inj hh))
  | Except.ok _, Except.error _ => Decidable.isFalse (fun hh => Except.noConfusion hh)
  | Except.error _, Except.ok _ => Decidable.isFalse (fun hh => Except.noConfusion hh)

def improvement_pct (trad_val gearless_val : ℚ) : Except String ℚ :=
  if trad_val = 0 then Except.error "ZeroDivisionError"
  else Except.ok ((trad_val - gearless_val) / trad_val * 100)

/-- The four benchmark fields used by `compare_with_traditional`
(structural_analysis.py lines 133-148): mean stress, weight, power
efficiency and assembly time. -/
structure Benchmark where
  mean_stress : ℚ
  weight : ℚ
  power_efficiency : ℚ
  assembly_time : ℚ
deriving DecidableEq

/-- The `improvements` dictionary of `compare_with_traditional`
(structural_analysis.py lines 152-161). -/
structure Improvements where
  stress_reduction : ℚ
  weight_reduction : ℚ
  efficiency_improvement : ℚ
  assembly_time_reduction : ℚ
deriving DecidableEq

/-- The default literature benchmark of `compare_with_traditional`
(structural_analysis.py lines 133-139): mean_stress 150, weight 3.2,
power_efficiency 0.65, assembly_time 4.5. -/
def default_traditional_benchmark : Benchmark :=
  ⟨150, 16/5, 13/20, 9/2⟩

/-- Embeds the `improvements` computation of `compare_with_traditional`
(structural_analysis.py lines 150-161): three lower-is-better metrics use
`(traditional - gearless) / traditional * 100` and the higher-is-better
power efficiency uses `(gearless - traditional) / traditional * 100`.
There is no baseline check; as in `improvement_pct`, only an exactly-zero
baseline fails, through the division itself. -/
def compare_with_traditional (traditional gearless : Benchmark) :
    Except String Improvements :=
  if traditional.mean_stress = 0 ∨ traditional.weight = 0 ∨
      traditional.power_efficiency = 0 ∨ traditional.assembly_time = 0 then
    Except.error "ZeroDivisionError"
  else
    Except.ok
      { stress_reduction :=
          (traditional.mean_stress - gearless.mean_stress) / traditional.mean_stress * 100
        weight_reduction :=
          (traditional.weight - gearless.weight) / traditional.weight * 100
        efficiency_improvement :=
          (gearless.power_efficiency - traditional.power_efficiency) /
            traditional.power_efficiency * 100
        assembly_time_reduction :=
          (traditional.assembly_time - gearless.assembly_time) /
            traditional.assembly_time * 100 }

unseal Rat.add Rat.mul Rat.inv Rat.sub in
/-- Counterexample to C1: the comparator raises nothing on a negative
baseline.  `improvement_pct` at baseline -25, candidate 18 silently
returns 172 (with a broken sign: 18 is worse than -25 under
lower-is-better, yet the "improvement" is positive), and
`compare_with_traditional` with a benchmark whose mean stress is -150
returns a full `Improvements` record instead of an error. -/
theorem comparator_negative_baseline_silent :
    improvement_pct (-25) 18 = Except.ok 172 ∧
    compare_with_traditional ⟨-150, 16/5, 13/20, 9/2⟩ ⟨120, 21/10, 41/50, 14/5⟩ =
      Except.ok ⟨180, 275/8, 340/13, 340/9⟩ := by
  refine ⟨by decide, by decide⟩

/-- C1 as amended: the comparator performs no baseline-sign check.  For
every strictly negative baseline both comparator embeddings silently
return the raw formula value — no `DivisionByZeroMetric` (nor any other
error) is surfaced; only an exactly-zero baseline fails, and then through
the bare division, not a declared metric error. -/
theorem comparator_no_baseline_check (b c : ℚ) (g : Benchmark) (hb : b < 0) :
    improvement_pct b c = Except.ok ((b - c) / b * 100) ∧
    compare_with_traditional ⟨b, 16/5, 13/20, 9/2⟩ g =
      Except.ok
        { stress_reduction := (b - g.mean_stress) / b * 100
          weight_reduction := ((16/5 : ℚ) - g.weight) / (16/5) * 100
          efficiency_improvement := (g.power_efficiency - 13/20) / (13/20) * 100
          assembly_time_reduction := ((9/2 : ℚ) - g.assembly_time) / (9/2) * 100 } := by
  have hb0 : b ≠ 0 := ne_of_lt hb
  constructor
  · unfold improvement_pct
    rw [if_neg hb0]
  · unfold compare_with_traditional
    rw [if_neg]
    push_neg
    refine ⟨hb0, by norm_num, by norm_num, by norm_num⟩

unseal Rat.add Rat.mul Rat.inv Rat.sub in
/-- Witness for the amended C1, at baseline -25, candidate 18 and a
concrete gearless benchmark. -/
theorem comparator_no_baseline_check_witness :
    improvement_pct (-25) 18 = Except.ok (((-25 : ℚ) - 18) / (-25) * 100) ∧
    compare_with_traditional ⟨-25, 16/5, 13/20, 9/2⟩ ⟨120, 21/10, 41/50, 14/5⟩ =
      Except.ok
        { stress_reduction := ((-25 : ℚ) - 120) / (-25) * 100
          weight_reduction := ((16/5 : ℚ) - 21/10) / (16/5) * 100
          efficiency_improvement := ((41/50 : ℚ) - 13/20) / (13/20) * 100
          assembly_time_reduction := ((9/2 : ℚ) - 14/5) / (9/2) * 100 } :=
  comparator_no_baseline_check (-25) 18 ⟨120, 21/10, 41/50, 14/5⟩ (by norm_num)

unseal Rat.add Rat.mul Rat.inv Rat.sub in
/-- C3: for a positive baseline the comparator computes
`(baseline - candidate) / baseline * 100` in the lower-is-better form and
`(candidate - baseline) / baseline * 100` in the higher-is-better form
(the latter exactly as `compare_with_traditional` does for power
efficiency), each form is positive exactly when the candidate is better
under its polarity, and the spec scenario evaluates exactly:
`improvement_pct 25 18 = 28`. -/
theorem comparator_polarity_formulas (b c : ℚ) (g : Benchmark) (hb : 0 < b) :
    improvement_pct b c = Except.ok ((b - c) / b * 100) ∧
    (0 < (b - c) / b * 100 ↔ c < b) ∧
    (0 < (c - b) / b * 100 ↔ b < c) ∧
    (compare_with_traditional default_traditional_benchmark g).map
        (fun imp => imp.efficiency_improvement) =
      Except.ok ((g.power_efficiency - 13/20) / (13/20) * 100) ∧
    improvement_pct 25 18 = Except.ok 28 := by
  have hb0 : b ≠ 0 := ne_of_gt hb
  have key : ∀ x : ℚ, 0 < x / b * 100 ↔ 0 < x := by
    intro x
    rw [div_mul_eq_mul_div]
    rw [lt_div_iff₀ hb]
    constructor
    · intro h; nlinarith
    · intro h; nlinarith
  refine ⟨?_, ?_, ?_, ?_, by decide⟩
  · unfold improvement_pct
    rw [if_neg hb0]
  · rw [key]
    exact sub_pos
  · rw [key]
    exact sub_pos
  · unfold compare_with_traditional default_traditional_benchmark
    rw [if_neg (by push_neg; refine ⟨by norm_num, by norm_num, by norm_num, by norm_num⟩)]
    rfl

unseal Rat.add Rat.mul Rat.inv Rat.sub in
/-- Witness for C3 at the spec scenario baseline 25, candidate 18 and a
concrete gearless benchmark. -/
theorem comparator_polarity_formulas_witness :
    improvement_pct 25 18 = Except.ok (((25 : ℚ) - 18) / 25 * 100) ∧
    (0 < ((25 : ℚ) - 18) / 25 * 100 ↔ (18 : ℚ) < 25) ∧
    (0 < ((18 : ℚ) - 25) / 25 * 100 ↔ (25 : ℚ) < 18) ∧
    (compare_with_traditional default_traditional_benchmark ⟨120, 21/10, 41/50, 14/5⟩).map
        (fun imp => imp.efficiency_improvement) =
      Except.ok (((41/50 : ℚ) - 13/20) / (13/20) * 100) ∧
    improvement_pct 25 18 = Except.ok 28 :=
  comparator_polarity_formulas 25 18 ⟨120, 21/10, 41/50, 14/5⟩ (by norm_num)

unseal Rat.add Rat.mul Rat.inv Rat.sub in
/-- C2 (code bug): the efficiency guard tests the numerator `load` rather
than the denominator `power_consumption`, contradicting both the claimed
policy (0 on a non-positive denominator) and the code's own
`# Avoid division by zero` comment: at `load = 5, power_consumption = 0`
the division by zero happens anyway (non-finite result, not 0), and at
`load = 5, power_consumption = -2` the code returns -5/2 instead of 0.
The safety-factor half of the claim does hold: non-positive stress yields
the NaN marker, and positive stress divides safely. -/
theorem metric_deriver_guard_mismatch :
    efficiency_cell 5 0 = none ∧
    efficiency_cell 5 (-2) = some (-5/2) ∧
    efficiency_cell 5 0 ≠ some 0 ∧
    safety_factor_cell 300 0 = none ∧
    safety_factor_cell 300 150 = some 2 := by
  refine ⟨by decide, by decide, by decide, by decide, by decide⟩

/-! ## Aggregator pre-step: `performance_metrics.py`,
`analyze_payload_performance` (lines 240-276) and
`structural_analysis.py`, `analyze_joint_loads` (lines 80-116) -/

/-- The bin edges of `pd.cut` (performance_metrics.py line 257):
`[0, 0.75, 1.5, 2.25, 3.0]`. -/
def load_bins : List ℚ := [0, 3/4, 3/2, 9/4, 3]

/-- Embeds `pd.cut(data['load'], bins=[0, 0.75, 1.5, 2.25, 3.0], ...)`
(performance_metrics.py lines 256-258).  With pandas defaults
(`right=True`, no `include_lowest`) bin `j` is the left-open right-closed
interval `(bins[j], bins[j+1]]`, so a value equal to the lowest edge 0, or
outside `(0, 3]`, belongs to no bin and becomes NaN (`none`).  The four
labels `0-25% .. 75-100%` are encoded by their bin index `0..3`. -/
def load_category_of (x : ℚ) : Option ℕ :=
  if 0 < x ∧ x ≤ 3/4 then some 0
  else if 3/4 < x ∧ x ≤ 3/2 then some 1
  else if 3/2 < x ∧ x ≤ 9/4 then some 2
  else if 9/4 < x ∧ x ≤ 3 then some 3
  else none

/-- The group key of each row under
`data.groupby(['design_type', 'load_category'])` (performance_metrics.py
line 261), for rows reduced to the two fields the grouping depends on
(design type, load).  pandas `groupby` silently excludes rows whose key
contains NaN (default `dropna=True`), embedded by `filterMap`: a row whose
load falls in no bin contributes no key. -/
def payloadKeys (rows : List (String × ℚ)) : List (String × ℕ) :=
  rows.filterMap (fun r => (load_category_of r.2).map (fun j => (r.1, j)))

/-- The distinct group keys emitted by the payload `groupby` — one
aggregate row per distinct non-NaN key combination.  (Under the legacy
pandas default `observed=False` a categorical grouper additionally emits
its unobserved categories; that version-dependent padding is not modelled,
and only strengthens the failure of the no-padding claim.) -/
def payloadGroups (rows : List (String × ℚ)) : List (String × ℕ) :=
  (payloadKeys rows).dedup

/-- The group key of each row under `data.groupby('joint_id')`
(structural_analysis.py line 99), for rows reduced to (joint_id, load):
the key is total — every row has one. -/
def joint_ids (rows : List (String × ℚ)) : List String :=
  rows.map (fun r => r.1)

/-- The distinct group keys emitted by `analyze_joint_loads`'s `groupby`:
one aggregate row per joint id present. -/
def jointGroups (rows : List (String × ℚ)) : List String :=
  (joint_ids rows).dedup

unseal Rat.add Rat.mul Rat.inv Rat.sub in
/-- Counterexample to C5: `pd.cut`'s buckets are left-open right-closed,
not half-open-with-closed-final: the value 3/4 = 0.75 lands in bucket 0
(closed upper edge of a non-final bucket), and the value 0 — the lowest
declared boundary itself — falls into no bucket at all (a gap), after
which the grouping silently drops its row instead of reporting it. -/
theorem bucket_gap_and_silent_drop :
    load_category_of 0 = none ∧
    load_category_of (3/4) = some 0 ∧
    payloadGroups [("gearless", (0:ℚ))] = [] := by
  refine ⟨by decide, by decide, by decide⟩

/-- C5 as amended: every bucket of the payload discretization is left-open
and right-closed `(bins[j], bins[j+1]]`; a value receives a bucket exactly
when it lies in `(0, 3]` (so each such value gets exactly one bucket,
giving no gaps and no overlaps on that range, but the declared lower edge
0 itself is excluded); and a value outside every bucket is not reported —
its row is silently dropped from the grouping. -/
theorem bucket_right_closed_assignment :
    (∀ x : ℚ, (load_category_of x).isSome = true ↔ (0 < x ∧ x ≤ 3)) ∧
    (∀ (x : ℚ) (j : ℕ), load_category_of x = some j →
      load_bins.getD j 0 < x ∧ x ≤ load_bins.getD (j + 1) 0) ∧
    (∀ (d : String) (x : ℚ), load_category_of x = none →
      payloadGroups [(d, x)] = []) := by
  refine ⟨?_, ?_, ?_⟩
  · intro x
    unfold load_category_of
    split_ifs with h1 h2 h3 h4
    · simp only [Option.isSome_some, true_iff]
      exact ⟨h1.1, by linarith [h1.2]⟩
    · simp only [Option.isSome_some, true_iff]
      exact ⟨by linarith [h2.1], by linarith [h2.2]⟩
    · simp only [Option.isSome_some, true_iff]
      exact ⟨by linarith [h3.1], by linarith [h3.2]⟩
    · simp only [Option.isSome_some, true_iff]
      exact ⟨by linarith [h4.1], h4.2⟩
    · simp only [Option.isSome_none, Bool.false_eq_true, false_iff]
      rintro ⟨hx0, hx3⟩
      have p1 : 3/4 < x := not_le.mp (fun hc => h1 ⟨hx0, hc⟩)
      have p2 : 3/2 < x := not_le.mp (fun hc => h2 ⟨p1, hc⟩)
      have p3 : 9/4 < x := not_le.mp (fun hc => h3 ⟨p2, hc⟩)
      exact h4 ⟨p3, hx3⟩
  · intro x j h
    unfold load_category_of at h
    split_ifs at h with h1 h2 h3 h4
    · obtain rfl : 0 = j := Option.some.inj h
      simpa [load_bins] using h1
    · obtain rfl : 1 = j := Option.some.inj h
      simpa [load_bins] using h2
    · obtain rfl : 2 = j := Option.some.inj h
      simpa [load_bins] using h3
    · obtain rfl : 3 = j := Option.some.inj h
      simpa [load_bins] using h4
  · intro d x h
    simp [payloadGroups, payloadKeys, h]

unseal Rat.add Rat.mul Rat.inv Rat.sub in
/-- Witness for the amended C5: the load value 1 is assigned bucket 1 and
indeed lies in `(0.75, 1.5]`, and the out-of-bucket load 0 is silently
dropped from the grouping. -/
theorem bucket_right_closed_assignment_witness :
    (load_bins.getD 1 0 < (1:ℚ) ∧ (1:ℚ) ≤ load_bins.getD 2 0) ∧
    payloadGroups [("gearless", (0:ℚ))] = [] :=
  ⟨bucket_right_closed_assignment.2.1 1 1 (by decide),
    bucket_right_closed_assignment.2.2 "gearless" 0 (by decide)⟩

/-- The `count` reducer of the spec's testable property: the number of
key occurrences, decided by propositional equality. -/
def countKey {α : Type} [DecidableEq α] (l : List α) (k : α) : ℕ :=
  l.count k

theorem length_filterMap_eq_length_filter {α β : Type} (f : α → Option β) (l : List α) :
    (l.filterMap f).length = (l.filter (fun a => (f a).isSome)).length := by
  induction l with
  | nil => rfl
  | cons a t ih =>
    cases h : f a with
    | none => simp [List.filterMap_cons, List.filter_cons, h, ih]
    | some b => simp [List.filterMap_cons, List.filter_cons, h, ih]

unseal Rat.add Rat.mul Rat.inv Rat.sub in
/-- Counterexample to C6: summing the per-group row counts over all
emitted groups does not equal the input row count.  On the two-row input
`[("gearless", 1), ("gearless", 0)]` the load value 0 receives a NaN
bucket and its row is silently excluded, so the counts over the emitted
groups sum to 1 while the input has 2 rows. -/
theorem aggregate_count_undercount :
    ((payloadGroups [("gearless", (1:ℚ)), ("gearless", (0:ℚ))]).map
        (countKey (payloadKeys [("gearless", (1:ℚ)), ("gearless", (0:ℚ))]))).sum = 1 ∧
    [("gearless", (1:ℚ)), ("gearless", (0:ℚ))].length = 2 := by
  refine ⟨by decide, by decide⟩

/-- C6 as amended: the payload aggregator emits exactly one group per
distinct (design, bucket) key among the rows whose load falls inside some
bucket — no duplicates, no absent combination — and the count reducer
summed over the emitted groups equals the number of such rows, which is
the row count of the input *after* silently excluding rows whose load is
in no bucket; for the joint-load aggregator, whose plain string key is
total, the summed counts equal the full input row count. -/
theorem aggregate_present_groups_count (rows jrows : List (String × ℚ)) :
    (payloadGroups rows).Nodup ∧
    (∀ k, k ∈ payloadGroups rows ↔ k ∈ payloadKeys rows) ∧
    ((payloadGroups rows).map (countKey (payloadKeys rows))).sum =
      (payloadKeys rows).length ∧
    (payloadKeys rows).length =
      (rows.filter (fun r => (load_category_of r.2).isSome)).length ∧
    ((jointGroups jrows).map (countKey (joint_ids jrows))).sum = jrows.length := by
  refine ⟨List.nodup_dedup _, fun k => List.mem_dedup, ?_, ?_, ?_⟩
  · rw [payloadGroups]
    exact List.sum_map_count_dedup_eq_length (payloadKeys rows)
  · rw [payloadKeys, length_filterMap_eq_length_filter]
    apply congrArg
    apply List.filter_congr
    intro r _
    cases load_category_of r.2 <;> rfl
  · rw [jointGroups]
    rw [show ((joint_ids jrows).dedup.map (countKey (joint_ids jrows))).sum =
        ((joint_ids jrows).dedup.map (fun x => (joint_ids jrows).count x)).sum from rfl]
    rw [List.sum_map_count_dedup_eq_length (joint_ids jrows)]
    simp [joint_ids]

/-- Witness for the amended C6 at a concrete one-row payload table and a
concrete two-row joint table. -/
theorem aggregate_present_groups_count_witness :
    (payloadGroups [("gearless", (1:ℚ))]).Nodup ∧
    ((jointGroups [("base", (2:ℚ)), ("elbow", (3:ℚ))]).map
        (countKey (joint_ids [("base", (2:ℚ)), ("elbow", (3:ℚ))]))).sum =
      [("base", (2:ℚ)), ("elbow", (3:ℚ))].length :=
  ⟨(aggregate_present_groups_count [("gearless", (1:ℚ))] []).1,
    (aggregate_present_groups_count [] [("base", (2:ℚ)), ("elbow", (3:ℚ))]).2.2.2.2⟩

/-! ## Argument mutation across pipeline stages -/

/-- A pandas cell as far as the claims need it: a numeric value, a string
label, NaN, or a `pd.cut` interval label encoded by its bin index. -/
inductive Cell where
  | num (q : ℚ)
  | str (s : String)
  | nan
  | cat (j : ℕ)
deriving DecidableEq

/-- A DataFrame row: an association list from column name to cell. -/
abbrev Row := List (String × Cell)

/-- A DataFrame: a list of rows. -/
abbrev Table := List Row

/-- Embeds column assignment `data[c] = ...` on one row: replace the
binding if the column exists, append it otherwise. -/
def setField : Row → String → Cell → Row
  | [], c, v => [(c, v)]
  | (k, w) :: r, c, v =>
    if k = c then (c, v) :: r else (k, w) :: setField r c v

/-- Embeds a whole-column assignment `data[c] = f(row)` applied to every
row of the frame. -/
def assignCol (t : Table) (c : String) (f : Row → Cell) : Table :=
  t.map (fun r => setField r c (f r))

/-- Reads a numeric cell from a row. -/
def getNum (r : Row) (c : String) : Option ℚ :=
  match List.lookup c r with
  | some (Cell.num q) => some q
  | _ => none

/-- The `load_category` cell `pd.cut` produces for one row
(performance_metrics.py lines 256-258): an interval label when the load
falls in a bin, NaN otherwise. -/
def load_category_cell (r : Row) : Cell :=
  match getNum r "load" with
  | some x =>
    match load_category_of x with
    | some j => Cell.cat j
    | none => Cell.nan
  | none => Cell.nan

/-- The caller's table after `clean_test_data(df)` returns: unchanged,
because the function's first statement is `data = df.copy()`
(data_processing.py line 25) and every later operation touches the copy. -/
def clean_arg_after (df : Table) : Table := df

/-- The caller's table after `normalize_data(df, ...)` returns: unchanged
(`data = df.copy()`, data_processing.py line 73). -/
def normalize_arg_after (df : Table) : Table := df

/-- The caller's table after `add_calculated_metrics(df)` returns:
unchanged (`data = df.copy()`, data_processing.py line 104). -/
def add_metrics_arg_after (df : Table) : Table := df

/-- The caller's table after `analyze_payload_performance(data)` returns:
the function takes NO copy and its first statement
`data['load_category'] = pd.cut(...)` (performance_metrics.py line 256)
assigns a new column in place, so the caller's frame gains the
`load_category` column. -/
def analyze_payload_arg_after (data : Table) : Table :=
  assignCol data "load_category" load_category_cell

/-- A one-row demonstration table holding a design label and a load. -/
def demo_table : Table :=
  [[("design_type", Cell.str "gearless"), ("load", Cell.num 1)]]

theorem lookup_setField (r : Row) (c : String) (v : Cell) :
    List.lookup c (setField r c v) = some v := by
  induction r with
  | nil => simp [setField, List.lookup]
  | cons p r ih =>
    obtain ⟨k, w⟩ := p
    by_cases h : k = c
    · simp [setField, h, List.lookup]
    · simp only [setField, if_neg h, List.lookup]
      have : (c == k) = false := by
        exact beq_eq_false_iff_ne.mpr (fun hc => h hc.symm)
      rw [this]
      exact ih

unseal Rat.add Rat.mul Rat.inv Rat.sub in
/-- Counterexample to C8: the payload aggregator does not leave the
caller's table unchanged — after the call the caller's one-row frame has
gained a `load_category` column. -/
theorem payload_aggregator_mutates_argument :
    analyze_payload_arg_after demo_table ≠ demo_table := by
  decide

/-- C8 as amended: the Cleaner, Normalizer and Metric Deriver each copy
their input first and leave the caller's table unchanged, but the payload
Aggregator mutates its argument in place: after the call every row of the
caller's table carries a `load_category` binding. -/
theorem stage_argument_effects :
    (∀ t : Table, clean_arg_after t = t) ∧
    (∀ t : Table, normalize_arg_after t = t) ∧
    (∀ t : Table, add_metrics_arg_after t = t) ∧
    (∀ (t : Table) (r : Row), r ∈ analyze_payload_arg_after t →
      (List.lookup "load_category" r).isSome = true) := by
  refine ⟨fun t => rfl, fun t => rfl, fun t => rfl, ?_⟩
  intro t r hr
  rw [analyze_payload_arg_after, assignCol] at hr
  obtain ⟨r0, _, rfl⟩ := List.mem_map.mp hr
  rw [lookup_setField]
  rfl

unseal Rat.add Rat.mul Rat.inv Rat.sub in
/-- Witness for the amended C8: on the demonstration table, the three
copying stages return the argument untouched while the payload
aggregator's in-place assignment leaves a `load_category` binding in the
caller's row. -/
theorem stage_argument_effects_witness :
    clean_arg_after demo_table = demo_table ∧
    (List.lookup "load_category"
      (setField [("design_type", Cell.str "gearless"), ("load", Cell.num 1)]
        "load_category"
        (load_category_cell
          [("design_type", Cell.str "gearless"), ("load", Cell.num 1)]))).isSome = true :=
  ⟨stage_argument_effects.1 demo_table,
    stage_argument_effects.2.2.2 demo_table _ (by decide)⟩

end GearlessArm
